import Mathlib

/-!
Shallow embedding of the retrieval-and-assembly engine of the
patent-coversheet application (Electron main process `main.js` /
`part_002`, renderer validation in `js/app.js` / `part_000`).

Strings are modelled as `List Char`; byte payloads (PDF buffers, page
files) are modelled by abstract numeric identifiers, since the claims
under verification only concern which payloads end up where, never their
contents.  Network I/O is modelled by passing the HTTP responses (status,
location header, body) explicitly into the response-handling code.
-/

namespace Patent

/-! ## Character classes used by the source regexes -/

/-- `[A-Z]` of the source regexes (ASCII uppercase letter). -/
def isUpperAZ (c : Char) : Bool := 65 ≤ c.toNat && c.toNat ≤ 90

/-- `\d` / `[0-9]` of the source regexes (ASCII digit). -/
def isDigit09 (c : Char) : Bool := 48 ≤ c.toNat && c.toNat ≤ 57

/-- `[A-Z0-9]` of the validator's kind-code regex. -/
def isUpperOrDigit (c : Char) : Bool := isUpperAZ c || isDigit09 c

/-! ## Identifier Normalizer

`js/app.js` (`part_000` lines 411–467):

```
const input = publicationInput.value.trim().toUpperCase();
if (!input) return;
if (!this.isValidPublicationNumber(input)) { showAlert(...); return; }
```

`isValidPublicationNumber` matches `^([A-Z]{2})(\d+)([A-Z][A-Z0-9]?)$`,
then checks the country code against `['US','EP','WO','JP','CN','IN']`,
the digit run against length 4–12 and the kind code against length 1–3.

The regex is embedded by its unique decomposition: the kind code starts
with a non-digit, so the `(\d+)` group is exactly the maximal digit run
after the two leading letters (backtracking can never shift a letter into
the digit group). -/

/-- JavaScript `String.prototype.trim` (both ends, whitespace). -/
def jsTrim (cs : List Char) : List Char :=
  ((cs.dropWhile Char.isWhitespace).reverse.dropWhile Char.isWhitespace).reverse

/-- JavaScript `String.prototype.toUpperCase` restricted to the ASCII
range exercised by publication numbers. -/
def jsToUpper (cs : List Char) : List Char := cs.map Char.toUpper

/-- Country codes accepted by `isValidPublicationNumber`. -/
def validCountryCodes : List (List Char) :=
  [['U','S'], ['E','P'], ['W','O'], ['J','P'], ['C','N'], ['I','N']]

/-- The kind-code group `[A-Z][A-Z0-9]?` of the validator regex. -/
def validatorKindOk : List Char → Bool
  | [l] => isUpperAZ l
  | [l, x] => isUpperAZ l && isUpperOrDigit x
  | _ => false

/-- The anchored match of `^([A-Z]{2})(\d+)([A-Z][A-Z0-9]?)$`, returning
the three capture groups. -/
def matchValidatorRegex : List Char → Option (List Char × List Char × List Char)
  | c1 :: c2 :: rest =>
    if isUpperAZ c1 && isUpperAZ c2 then
      if (rest.takeWhile isDigit09).length ≥ 1
          && validatorKindOk (rest.dropWhile isDigit09) then
        some ([c1, c2], rest.takeWhile isDigit09, rest.dropWhile isDigit09)
      else none
    else none
  | _ => none

/-- The post-match checks of `isValidPublicationNumber` (`part_000`
lines 452–466): country code in the supported set, digit run of length
4–12, kind code of length 1–3. -/
def validatorChecks : List Char × List Char × List Char → Bool
  | (cc, ds, ks) =>
    if ¬ (validCountryCodes.contains cc) then false
    else if ds.length < 4 || ds.length > 12 then false
    else if ks.length < 1 || ks.length > 3 then false
    else true

/-- `isValidPublicationNumber` (`part_000` lines 441–467). -/
def isValidPublicationNumber (cs : List Char) : Bool :=
  match matchValidatorRegex cs with
  | none => false
  | some groups => validatorChecks groups

/-- The validation performed by `addPublication` (`part_000` lines
411–425): trim, uppercase, reject empty, reject regex/country failures.
Returns the canonical identifier on acceptance.  It is a pure function:
the renderer only issues the download IPC call for identifiers it
returns, so rejected input never reaches the network layer. -/
def validatePublicationInput (raw : List Char) : Option (List Char) :=
  if (jsToUpper (jsTrim raw)).isEmpty then none
  else if isValidPublicationNumber (jsToUpper (jsTrim raw)) then
    some (jsToUpper (jsTrim raw))
  else none

/-- Grammar stated by the spec sentence under claim C5, written from the
spec's words for refinement comparison: `{2-letter jurisdiction in the
supported set}{4-12 digit number}{1-3 character kind code starting with
a letter}`. -/
def specClaimGrammarValid (cs : List Char) : Bool :=
  match cs with
  | c1 :: c2 :: rest =>
    let ds := rest.takeWhile isDigit09
    let ks := rest.dropWhile isDigit09
    validCountryCodes.contains [c1, c2]
      && (4 ≤ ds.length && ds.length ≤ 12)
      && (match ks with
          | [] => false
          | l :: tl => isUpperAZ l && tl.length ≤ 2 && tl.all isUpperOrDigit)
  | _ => false

/-- The grammar the validator actually decides (kind code is one
uppercase letter optionally followed by one uppercase letter or digit),
as an explicit decomposition. -/
def AmendedGrammar (cs : List Char) : Prop :=
  ∃ c1 c2 ds ks,
    cs = c1 :: c2 :: (ds ++ ks) ∧
    validCountryCodes.contains [c1, c2] = true ∧
    ds.all isDigit09 = true ∧ 4 ≤ ds.length ∧ ds.length ≤ 12 ∧
    ((∃ l, ks = [l] ∧ isUpperAZ l = true) ∨
     (∃ l x, ks = [l, x] ∧ isUpperAZ l = true ∧ isUpperOrDigit x = true))

/-! ## Repository-specific reformatting for the EPO document-index endpoint

`main.js` lines 446–453: `formatPublicationNumberForEPO` matches
`^([A-Z]{2})(\d+)([A-Z]\d?)$` and joins the groups with dots; on a
failed match the input is returned unchanged.  `getEPODocumentInfo`
(`main.js` lines 455–518) POSTs exactly this formatted value as the
plain-text request body. -/

/-- The kind-code group `[A-Z]\d?` of the EPO formatter regex. -/
def epoKindOk : List Char → Bool
  | [l] => isUpperAZ l
  | [l, d] => isUpperAZ l && isDigit09 d
  | _ => false

/-- The anchored match of `^([A-Z]{2})(\d+)([A-Z]\d?)$`. -/
def matchEPOFormatRegex : List Char → Option (List Char × List Char × List Char)
  | c1 :: c2 :: rest =>
    if isUpperAZ c1 && isUpperAZ c2 then
      if (rest.takeWhile isDigit09).length ≥ 1
          && epoKindOk (rest.dropWhile isDigit09) then
        some ([c1, c2], rest.takeWhile isDigit09, rest.dropWhile isDigit09)
      else none
    else none
  | _ => none

/-- `formatPublicationNumberForEPO` (`main.js` lines 446–453). -/
def formatPublicationNumberForEPO (cs : List Char) : List Char :=
  match matchEPOFormatRegex cs with
  | some (cc, ds, ks) => cc ++ ('.' :: ds) ++ ('.' :: ks)
  | none => cs

/-- The plain-text body POSTed by `getEPODocumentInfo` (`main.js`
line 516 `req.write(formattedPubNumber)`, with the formatted value
produced at line 324). -/
def epoDocumentIndexRequestBody (pub : List Char) : List Char :=
  formatPublicationNumberForEPO pub

/-! ## Session Token Cache

`main.js` lines 304–306 and 351–368.  The globals `globalAccessToken` /
`globalTokenExpiry` start as `null`; a cache hit requires both to be
truthy and `now < globalTokenExpiry`.  On a miss the token endpoint is
invoked; success caches the token for 14 minutes, and a rejected token
request propagates before the assignments run, leaving both globals
unchanged.  The token-endpoint interaction is passed in as an `Except`
value; the `Nat` component of the result counts the token-endpoint
calls the invocation made. -/

structure TokenCacheState where
  globalAccessToken : Option String
  globalTokenExpiry : Option Nat
deriving DecidableEq, Repr

/-- 14 minutes in milliseconds (`main.js` line 364). -/
def tokenCacheValidityMs : Nat := 14 * 60 * 1000

/-- The cache-miss path of `getEPOAccessTokenWithCache` (`main.js`
lines 359–367). -/
def refreshEPOAccessToken (st : TokenCacheState) (now : Nat)
    (endpoint : Except String String) :
    Except String String × TokenCacheState × Nat :=
  match endpoint with
  | Except.ok t => (Except.ok t, ⟨some t, some (now + tokenCacheValidityMs)⟩, 1)
  | Except.error m => (Except.error m, st, 1)

/-- `getEPOAccessTokenWithCache` (`main.js` lines 351–368). -/
def getEPOAccessTokenWithCache (st : TokenCacheState) (now : Nat)
    (endpoint : Except String String) :
    Except String String × TokenCacheState × Nat :=
  match st.globalAccessToken, st.globalTokenExpiry with
  | some t, some e =>
    if now < e then (Except.ok t, st, 0)
    else refreshEPOAccessToken st now endpoint
  | some _, none => refreshEPOAccessToken st now endpoint
  | none, _ => refreshEPOAccessToken st now endpoint

/-! ## EPO page download and ordered merge

`downloadSinglePage` (`main.js` lines 644–694) rejects on any status
other than 200.  `downloadAllPages` (`main.js` lines 696–842) downloads
pages in batches, collects `{pageNum, pageFile, success}` records, throws
when no page succeeded, sorts the successes by `pageNum` and merges them
in that order before the single write to the destination path.  Page
payloads are abstract numbers; the per-page parse step of the merge loop
never fails in the model because the claims under verification do not
exercise parse failures. -/

structure PageDownloadResult where
  pageNum : Nat
  success : Bool
  payload : Nat
deriving DecidableEq, Repr

/-- Response handling of `downloadSinglePage` (`main.js` lines 663–671):
any status other than 200 is a terminal failure for that page. -/
def downloadSinglePageResult (status pageNumber body : Nat) : Except String Nat :=
  if status ≠ 200 then
    Except.error ("Failed to download page " ++ toString pageNumber
      ++ ": HTTP " ++ toString status)
  else Except.ok body

/-- One step of `pageFiles.sort((a, b) => a.pageNum - b.pageNum)`
(`main.js` line 775), realised as stable insertion sort. -/
def orderedInsertByPage (a : PageDownloadResult) :
    List PageDownloadResult → List PageDownloadResult
  | [] => [a]
  | b :: bs =>
    if a.pageNum ≤ b.pageNum then a :: b :: bs
    else b :: orderedInsertByPage a bs

def sortByPageNum : List PageDownloadResult → List PageDownloadResult
  | [] => []
  | a :: as => orderedInsertByPage a (sortByPageNum as)

/-- The `pageFiles` collection (`main.js` lines 752–766): only results
with `success` are kept. -/
def successfulPages (rs : List PageDownloadResult) : List PageDownloadResult :=
  rs.filter (fun r => r.success)

/-- The merge order of `downloadAllPages`: successes sorted by page
number (`main.js` lines 775–815). -/
def epoMergedPages (rs : List PageDownloadResult) : List PageDownloadResult :=
  sortByPageNum (successfulPages rs)

/-- `downloadAllPages` as a function from the settled page results to
either the thrown error or the single write performed at the destination
path (`main.js` lines 770–820). -/
def downloadAllPagesWrites (filePath : String) (rs : List PageDownloadResult) :
    Except String (List (String × List Nat)) :=
  if (successfulPages rs).isEmpty then
    Except.error "No pages were downloaded successfully"
  else Except.ok [(filePath, (epoMergedPages rs).map (fun r => r.payload))]

/-- The structured result `downloadEPODocument` returns to its caller
(`main.js` lines 618–623) after `downloadAllPages` succeeds; the thrown
error propagates otherwise. -/
structure EPODownloadOutcome where
  success : Bool
  message : String
  filePath : String
deriving DecidableEq, Repr

def downloadEPODocumentResult (originalPubNumber downloadType filePath : String)
    (rs : List PageDownloadResult) : Except String EPODownloadOutcome :=
  match downloadAllPagesWrites filePath rs with
  | Except.error e => Except.error e
  | Except.ok _ =>
    Except.ok ⟨true,
      "Downloaded " ++ originalPubNumber ++ " (" ++ downloadType ++ ") to "
        ++ filePath,
      filePath⟩

/-- The set of pages that failed, as recorded only in console logging
(`main.js` lines 760–765); this data never reaches the returned result. -/
def failedPageNums (rs : List PageDownloadResult) : List Nat :=
  (rs.filter (fun r => !r.success)).map (fun r => r.pageNum)

/-! ## USPTO HTTP model

Requests and responses for the USPTO endpoints (`part_002`).  `location`
is the parsed `Location` header; `body` is an abstract identifier for
the (already JSON-parsed) response payload. -/

structure UrlParts where
  hostname : String
  pathq : String
deriving DecidableEq, Repr

structure HttpResponse where
  status : Nat
  location : Option UrlParts
  body : Nat
deriving DecidableEq, Repr

structure HttpRequest where
  hostname : String
  pathq : String
  headers : List (String × String)
deriving DecidableEq, Repr

/-! ## Document fetch: `downloadUsptoDocument` (`part_002` lines 1400–1502)

The primary GET carries `accept` and `X-API-KEY`.  On 301/302 with a
location, exactly one redirect request is issued, built without the
`X-API-KEY` header irrespective of the redirect host; the redirect
response is only accepted on 200 (a second redirect is a terminal
failure, never followed). -/

def usptoDocPrimaryRequest (url : UrlParts) (usptoApiKey : String) : HttpRequest :=
  ⟨url.hostname, url.pathq,
    [("accept", "application/pdf"), ("X-API-KEY", usptoApiKey)]⟩

def usptoDocRedirectRequest (loc : UrlParts) : HttpRequest :=
  ⟨loc.hostname, loc.pathq, [("accept", "application/pdf")]⟩

/-- The requests `downloadUsptoDocument` issues, given the primary
response. -/
def downloadUsptoDocumentRequests (url : UrlParts) (usptoApiKey : String)
    (resp : HttpResponse) : List HttpRequest :=
  usptoDocPrimaryRequest url usptoApiKey ::
    (if resp.status = 302 ∨ resp.status = 301 then
      match resp.location with
      | some loc => [usptoDocRedirectRequest loc]
      | none => []
    else [])

/-- The outcome of `downloadUsptoDocument`, given the primary response
and (where one is issued) the redirect response. -/
def downloadUsptoDocumentOutcome (resp redirectResp : HttpResponse) :
    Except String Nat :=
  if resp.status = 302 ∨ resp.status = 301 then
    match resp.location with
    | none => Except.error "Redirect response missing location header"
    | some _ =>
      if redirectResp.status = 200 then Except.ok redirectResp.body
      else Except.error ("Failed to download from redirect: HTTP "
        ++ toString redirectResp.status)
  else if resp.status = 200 then Except.ok resp.body
  else Except.error ("Failed to download document: HTTP " ++ toString resp.status)

/-! ## Document-index fetch: `fetchUsptoFileWrapperDocuments`
(`part_002` lines 1021–1150)

Dispatch order of the response handler: 301/302 with a location is
followed once (same headers); otherwise 429 schedules a recursive retry
after a fixed 100 ms delay; otherwise 200 resolves and anything else is
a terminal failure.  A 30-second timeout is attached to each individual
request.  The body-derived suffix that the code appends to error
messages is abstracted away; the 403/404 special-casing is kept. -/

inductive UsptoIndexStep where
  | success (body : Nat)
  | failure (msg : String)
  | retryAfterDelayMs (ms : Nat)
deriving DecidableEq, Repr

def usptoIndexErrorMessage (status : Nat) : String :=
  if status = 403 then
    "Access forbidden. Please verify your USPTO API key is valid and has proper permissions."
  else if status = 404 then
    "Application not found. Please verify the application number is correct."
  else "HTTP " ++ toString status

def fetchUsptoIndexStep (resp redirectResp : HttpResponse) : UsptoIndexStep :=
  if (resp.status = 301 ∨ resp.status = 302) ∧ resp.location.isSome = true then
    if redirectResp.status = 200 then UsptoIndexStep.success redirectResp.body
    else UsptoIndexStep.failure ("Redirect failed with status "
      ++ toString redirectResp.status)
  else if resp.status = 429 then UsptoIndexStep.retryAfterDelayMs 100
  else if resp.status = 200 then UsptoIndexStep.success resp.body
  else UsptoIndexStep.failure (usptoIndexErrorMessage resp.status)

/-- `setTimeout(..., 100)` delay before each retry (`part_002` line 1091). -/
def usptoRetryDelayMs : Nat := 100

/-- `req.setTimeout(30000, ...)` attached to each individual request
(`part_002` line 1142). -/
def usptoIndexRequestTimeoutMs : Nat := 30000

/-- The retry recursion of `fetchUsptoFileWrapperDocuments`, run against
oracles giving the primary and redirect response of each attempt.  The
source recursion has no retry bound, so it is embedded with explicit
fuel: `none` means the fuel ran out with the fetch still retrying, i.e.
no terminal outcome was reached within that many attempts. -/
def fetchUsptoFileWrapperDocumentsFuel (primary redirect : Nat → HttpResponse) :
    Nat → Nat → Option (Except String Nat)
  | _, 0 => none
  | attempt, fuel + 1 =>
    match fetchUsptoIndexStep (primary attempt) (redirect attempt) with
    | UsptoIndexStep.success b => some (Except.ok b)
    | UsptoIndexStep.failure m => some (Except.error m)
    | UsptoIndexStep.retryAfterDelayMs _ =>
      fetchUsptoFileWrapperDocumentsFuel primary redirect (attempt + 1) fuel

/-- Total scheduled retry delay after a given number of 429 retries. -/
def usptoIndexTotalRetryDelay (retries : Nat) : Nat := usptoRetryDelayMs * retries

/-! ## File-wrapper ZIP assembly: `downloadFileWrapperAsZipParallel`
(`part_002` lines 1534–1621)

Documents are processed in sequential batches of 5; each batch maps to
download results `{success, fileName, buffer}` (failures are caught and
become `success: false` records), and every successful result is added
to the archive in result order.  The archive is then generated and
written to disk unconditionally.  A document's fetch outcome is modelled
as `Option Nat`: `some buffer` if `downloadUsptoDocument` resolves,
`none` if it rejects. -/

structure UsptoDocEntry where
  documentCode : Option String
  documentIdentifier : Option String
deriving DecidableEq, Repr

/-- JavaScript `v || d` for the string-or-missing fields of a document
record: `undefined` and the empty string both fall back. -/
def jsOrDefault (v : Option String) (d : String) : String :=
  match v with
  | some s => if s = "" then d else s
  | none => d

/-- The character class `[<>:"/\\|?*]` of the filename sanitiser at
`part_002` line 1570. -/
def windowsUnsafeChars : List Char := ['<', '>', ':', '"', '/', '\\', '|', '?', '*']

def replaceWindowsUnsafe (s : String) : String :=
  ⟨s.data.map (fun c => if windowsUnsafeChars.contains c then '_' else c)⟩

/-- The archive entry name built at `part_002` lines 1569–1570:
`{documentCode || 'doc'}-{documentIdentifier || docIndex}.pdf` with the
characters of `windowsUnsafeChars` replaced by `_`. -/
def zipEntryFileName (doc : UsptoDocEntry) (docIndex : Nat) : String :=
  replaceWindowsUnsafe (jsOrDefault doc.documentCode "doc" ++ "-"
    ++ jsOrDefault doc.documentIdentifier (toString docIndex) ++ ".pdf")

/-- `[A-Za-z0-9.-]`, written from the spec's words for claim C8. -/
def isLowerAZ (c : Char) : Bool := 97 ≤ c.toNat && c.toNat ≤ 122

def specSafeChar (c : Char) : Bool :=
  isUpperAZ c || isLowerAZ c || isDigit09 c || c = '.' || c = '-'

/-- The entry-name sanitiser stated by the spec sentence under claim C8,
written from the spec's words for refinement comparison: every character
outside `[A-Za-z0-9.-]` is replaced by `_`. -/
def specSafeFileName (s : String) : String :=
  ⟨s.data.map (fun c => if specSafeChar c then c else '_')⟩

structure ZipDownloadResult where
  success : Bool
  fileName : String
  payload : Nat
deriving DecidableEq, Repr

/-- The settled results of one batch (`part_002` lines 1560–1581): the
promise for the document at position `batchIndex` of the batch computes
its name at `docIndex = startIdx + batchIndex`, returns a success record
carrying name and buffer when the fetch resolves, and a failure record
when it rejects (the payload slot of a failure record is unused and
modelled as `0`). -/
def zipBatchResults (startIdx : Nat) :
    List (UsptoDocEntry × Option Nat) → List ZipDownloadResult
  | [] => []
  | (doc, some buf) :: rest =>
    ⟨true, zipEntryFileName doc startIdx, buf⟩ :: zipBatchResults (startIdx + 1) rest
  | (doc, none) :: rest =>
    ⟨false, zipEntryFileName doc startIdx, 0⟩ :: zipBatchResults (startIdx + 1) rest

/-- Concurrency ceiling of the file-wrapper batches (`part_002`
line 1552). -/
def usptoZipMaxConcurrency : Nat := 5

/-- The `for (let i = 0; i < documents.length; i += maxConcurrency)`
batching loop (`part_002` lines 1556–1599), collecting all settled
results in batch order. -/
def zipProcessBatches : Nat → List (UsptoDocEntry × Option Nat) →
    List ZipDownloadResult
  | _, [] => []
  | startIdx, d :: ds =>
    zipBatchResults startIdx ((d :: ds).take usptoZipMaxConcurrency)
      ++ zipProcessBatches
          (startIdx + ((d :: ds).take usptoZipMaxConcurrency).length)
          ((d :: ds).drop usptoZipMaxConcurrency)
termination_by _ l => l.length
decreasing_by
  simp only [usptoZipMaxConcurrency, List.length_drop, List.length_cons]
  omega

/-- `zip.file(...)` inserts exactly the successful results, in order
(`part_002` lines 1584–1587). -/
def zipEntriesOfResults (results : List ZipDownloadResult) : List (String × Nat) :=
  results.filterMap (fun r =>
    if r.success then some (r.fileName, r.payload) else none)

/-- All file writes performed by `downloadFileWrapperAsZipParallel`: the
archive is generated and written once, unconditionally (`part_002` lines
1610–1615) — there is no zero-success check. -/
def downloadFileWrapperAsZipParallelWrites
    (docs : List (UsptoDocEntry × Option Nat)) (zipFilePath : String) :
    List (String × List (String × Nat)) :=
  [(zipFilePath, zipEntriesOfResults (zipProcessBatches 0 docs))]

/-- The entries the batched run is expected to produce, starting at a
given document index: one per successful fetch, in document order. -/
def zipEntriesFlatFrom (startIdx : Nat) :
    List (UsptoDocEntry × Option Nat) → List (String × Nat)
  | [] => []
  | (doc, some buf) :: rest =>
    (zipEntryFileName doc startIdx, buf) :: zipEntriesFlatFrom (startIdx + 1) rest
  | (_, none) :: rest => zipEntriesFlatFrom (startIdx + 1) rest

/-- The entries the batched run is expected to produce: one per
successful fetch, in document order. -/
def zipEntriesFlat (docs : List (UsptoDocEntry × Option Nat)) :
    List (String × Nat) :=
  zipEntriesFlatFrom 0 docs

/-! ## File-wrapper merged-PDF assembly:
`downloadFileWrapperAsMergedParallel` (`part_002` lines 1623–1732)

Settled results `{success, pdf, docIndex, ...}` are stored into a
pre-sized array at position `docIndex` (so completion order is
irrelevant), then merged by a single ascending scan that skips empty and
failed slots, and the merged document is saved unconditionally. -/

structure MergedDownloadResult where
  docIndex : Nat
  success : Bool
  pdfPayload : Nat
deriving DecidableEq, Repr

/-- `downloadedPdfs[result.value.docIndex] = result.value` (`part_002`
lines 1675–1678). -/
def assignByIndex (arr : List (Option MergedDownloadResult))
    (r : MergedDownloadResult) : List (Option MergedDownloadResult) :=
  arr.set r.docIndex (some r)

/-- The `downloadedPdfs` array after all batches have settled, starting
from `new Array(documents.length)` (`part_002` line 1645).  The settled
results are supplied as one list; batching only affects the grouping of
the assignments, not their effect. -/
def mergedCollect (n : Nat) (rs : List MergedDownloadResult) :
    List (Option MergedDownloadResult) :=
  rs.foldl assignByIndex (List.replicate n none)

/-- The ascending merge scan (`part_002` lines 1702–1720): slots are
visited in index order and empty or failed slots are skipped. -/
def usptoMergedSequence (n : Nat) (rs : List MergedDownloadResult) :
    List MergedDownloadResult :=
  (mergedCollect n rs).filterMap (fun o =>
    match o with
    | some r => if r.success then some r else none
    | none => none)

/-- All file writes performed by `downloadFileWrapperAsMergedParallel`:
the merged document is saved unconditionally (`part_002` lines
1722–1725) — there is no zero-success check. -/
def downloadFileWrapperAsMergedParallelWrites (n : Nat)
    (rs : List MergedDownloadResult) (mergedFilePath : String) :
    List (String × List Nat) :=
  [(mergedFilePath, (usptoMergedSequence n rs).map (fun r => r.pdfPayload))]

/-! ## Theorems -/

theorem isDigit09_eq_false_of_isUpperAZ {c : Char} (h : isUpperAZ c = true) :
    isDigit09 c = false := by
  simp only [isUpperAZ, Bool.and_eq_true, decide_eq_true_eq] at h
  simp only [isDigit09, Bool.and_eq_false_iff, decide_eq_false_iff_not]
  omega

theorem takeWhile_digits_append {ds ks : List Char} {k : Char} {tl : List Char}
    (hds : ds.all isDigit09 = true) (hks : ks = k :: tl)
    (hk : isDigit09 k = false) :
    (ds ++ ks).takeWhile isDigit09 = ds ∧ (ds ++ ks).dropWhile isDigit09 = ks := by
  induction ds with
  | nil =>
    subst hks
    simp [List.takeWhile, List.dropWhile, hk]
  | cons d ds ih =>
    simp only [List.all_cons, Bool.and_eq_true] at hds
    obtain ⟨hd, hds⟩ := hds
    have := ih hds
    simp [List.takeWhile, List.dropWhile, hd, this.1, this.2]

theorem matchValidatorRegex_eq_some {cs cc ds ks : List Char}
    (h : matchValidatorRegex cs = some (cc, ds, ks)) :
    ∃ c1 c2 rest, cs = c1 :: c2 :: rest ∧ cc = [c1, c2] ∧
      isUpperAZ c1 = true ∧ isUpperAZ c2 = true ∧
      ds = rest.takeWhile isDigit09 ∧ ks = rest.dropWhile isDigit09 ∧
      1 ≤ ds.length ∧ validatorKindOk ks = true := by
  match cs with
  | [] => exact absurd h (by simp [matchValidatorRegex])
  | [c] => exact absurd h (by simp [matchValidatorRegex])
  | c1 :: c2 :: rest =>
    simp only [matchValidatorRegex] at h
    by_cases hup : (isUpperAZ c1 && isUpperAZ c2) = true
    · rw [if_pos hup] at h
      rw [Bool.and_eq_true] at hup
      by_cases hgrp : ((rest.takeWhile isDigit09).length ≥ 1
          && validatorKindOk (rest.dropWhile isDigit09)) = true
      · rw [if_pos hgrp] at h
        simp only [Option.some.injEq, Prod.mk.injEq] at h
        obtain ⟨hcc, hds, hks⟩ := h
        simp only [Bool.and_eq_true, ge_iff_le, decide_eq_true_eq] at hgrp
        exact ⟨c1, c2, rest, rfl, hcc.symm, hup.1, hup.2, hds.symm, hks.symm,
          hds ▸ hgrp.1, hks ▸ hgrp.2⟩
      · rw [if_neg hgrp] at h; exact absurd h (by simp)
    · rw [if_neg hup] at h; exact absurd h (by simp)

theorem validatorKindOk_iff (ks : List Char) :
    validatorKindOk ks = true ↔
      (∃ l, ks = [l] ∧ isUpperAZ l = true) ∨
      (∃ l x, ks = [l, x] ∧ isUpperAZ l = true ∧ isUpperOrDigit x = true) := by
  match ks with
  | [] => simp [validatorKindOk]
  | [l] => simp [validatorKindOk]
  | [l, x] =>
    constructor
    · intro hk
      rw [validatorKindOk, Bool.and_eq_true] at hk
      exact Or.inr ⟨l, x, rfl, hk.1, hk.2⟩
    · rintro (⟨l1, hl1, _⟩ | ⟨l1, x1, hlx, h1, h2⟩)
      · exact absurd hl1 (by simp)
      · injection hlx with e1 e2
        injection e2 with e2 _
        subst e1; subst e2
        simp [validatorKindOk, h1, h2]
  | l :: x :: y :: tl => simp [validatorKindOk]

theorem isValidPublicationNumber_iff (cs : List Char) :
    isValidPublicationNumber cs = true ↔ AmendedGrammar cs := by
  constructor
  · intro h
    unfold isValidPublicationNumber at h
    match hm : matchValidatorRegex cs with
    | none => rw [hm] at h; exact absurd h (by simp)
    | some (cc, ds, ks) =>
      rw [hm] at h
      obtain ⟨c1, c2, rest, hcs, hccv, hub1, hub2, hdsv, hksv, hds1, hkok⟩ :=
        matchValidatorRegex_eq_some hm
      subst hcs hccv hdsv hksv
      simp only [validatorChecks] at h
      by_cases hcc : validCountryCodes.contains [c1, c2] = true
      · simp only [hcc, not_true_eq_false, if_false] at h
        by_cases hlen : ((rest.takeWhile isDigit09).length < 4
            || (rest.takeWhile isDigit09).length > 12) = true
        · rw [if_pos hlen] at h; exact absurd h (by simp)
        · rw [if_neg hlen] at h
          simp only [Bool.or_eq_true, not_or, Bool.not_eq_true,
            decide_eq_false_iff_not, not_lt, gt_iff_lt] at hlen
          refine ⟨c1, c2, rest.takeWhile isDigit09, rest.dropWhile isDigit09,
            by rw [List.takeWhile_append_dropWhile], hcc, ?_, hlen.1, hlen.2,
            (validatorKindOk_iff _).mp hkok⟩
          exact List.all_eq_true.mpr fun c hc => List.mem_takeWhile_imp hc
      · rw [if_pos (by simpa using hcc)] at h; exact absurd h (by simp)
  · rintro ⟨c1, c2, ds, ks, rfl, hcc, hds, hlen4, hlen12, hkind⟩
    have hupcc : isUpperAZ c1 = true ∧ isUpperAZ c2 = true := by
      revert hcc
      unfold validCountryCodes
      intro hcc
      simp only [List.contains_eq_any_beq, List.any_eq_true, beq_iff_eq] at hcc
      obtain ⟨l, hl, heq⟩ := hcc
      fin_cases hl <;> · injection heq with h1 h2; injection h2 with h2 _
                         subst h1; subst h2; exact ⟨by decide, by decide⟩
    obtain ⟨k, tl, htl, hkdig⟩ :
        ∃ k tl, ks = k :: tl ∧ isDigit09 k = false := by
      rcases hkind with ⟨l, rfl, hl⟩ | ⟨l, x, rfl, hl, _⟩
      · exact ⟨l, [], rfl, isDigit09_eq_false_of_isUpperAZ hl⟩
      · exact ⟨l, [x], rfl, isDigit09_eq_false_of_isUpperAZ hl⟩
    have hdecomp := takeWhile_digits_append hds htl hkdig
    have hkok : validatorKindOk ks = true :=
      (validatorKindOk_iff ks).mpr hkind
    have hkslen1 : 1 ≤ ks.length := by
      rcases hkind with ⟨l, rfl, _⟩ | ⟨l, x, rfl, _, _⟩ <;> simp
    have hkslen3 : ks.length ≤ 3 := by
      rcases hkind with ⟨l, rfl, _⟩ | ⟨l, x, rfl, _, _⟩ <;> simp
    have hm : matchValidatorRegex (c1 :: c2 :: (ds ++ ks))
        = some ([c1, c2], ds, ks) := by
      simp only [matchValidatorRegex, hupcc.1, hupcc.2, Bool.and_self, if_true,
        hdecomp.1, hdecomp.2, ge_iff_le, hkok, Bool.and_true]
      rw [if_pos (by simp only [decide_eq_true_eq]; omega)]
    have hdslen : ¬ ((ds.length < 4 || ds.length > 12) = true) := by
      simp only [Bool.or_eq_true, decide_eq_true_eq, gt_iff_lt, not_or]
      omega
    have hkslen : ¬ ((ks.length < 1 || ks.length > 3) = true) := by
      simp only [Bool.or_eq_true, decide_eq_true_eq, gt_iff_lt, not_or]
      omega
    unfold isValidPublicationNumber
    rw [hm]
    simp only [validatorChecks]
    simp only [hcc, not_true_eq_false, if_false]
    rw [if_neg hdslen, if_neg hkslen]

theorem validatePublicationInput_eq_some_iff (raw s : List Char) :
    validatePublicationInput raw = some s ↔
      (s = jsToUpper (jsTrim raw) ∧ AmendedGrammar s) := by
  unfold validatePublicationInput
  by_cases he : (jsToUpper (jsTrim raw)).isEmpty = true
  · rw [if_pos he]
    rw [List.isEmpty_iff] at he
    constructor
    · intro h; exact absurd h (by simp)
    · rintro ⟨rfl, ⟨c1, c2, ds, ks, habs, _⟩⟩
      rw [he] at habs
      exact absurd habs (by simp)
  · rw [if_neg he]
    by_cases hv : isValidPublicationNumber (jsToUpper (jsTrim raw)) = true
    · rw [if_pos hv]
      constructor
      · intro h
        have hs := Option.some_inj.mp h
        exact ⟨hs.symm, hs ▸ (isValidPublicationNumber_iff _).mp hv⟩
      · rintro ⟨rfl, _⟩; rfl
    · rw [if_neg hv]
      constructor
      · intro h; exact absurd h (by simp)
      · rintro ⟨rfl, hg⟩
        exact absurd ((isValidPublicationNumber_iff _).mpr hg) hv

/-- C5 counterexample: `US1234567B21` matches the grammar stated by the
claim (three-character kind code starting with a letter, `US`
jurisdiction, seven digits), yet identifier validation rejects it, so
validation does not accept exactly the claimed grammar. -/
theorem C5_counterexample :
    specClaimGrammarValid ("US1234567B21".toList) = true ∧
    validatePublicationInput ("US1234567B21".toList) = none := by decide

/-- C5 (amended): identifier validation trims and uppercases the raw
input, rejects empty input, and accepts exactly the strings
`{2-letter jurisdiction in US/EP/WO/JP/CN/IN}{4-12 digit number}{kind
code: one uppercase letter optionally followed by one uppercase letter
or digit}` (kind codes of length 3 are rejected); being a pure function,
it fails before any network call is issued. -/
theorem C5_validation_accepts_exactly_amended_grammar :
    (∀ raw s : List Char,
      validatePublicationInput raw = some s ↔
        (s = jsToUpper (jsTrim raw) ∧ AmendedGrammar s)) ∧
    (∀ raw : List Char, jsToUpper (jsTrim raw) = [] →
      validatePublicationInput raw = none) := by
  refine ⟨validatePublicationInput_eq_some_iff, fun raw h => ?_⟩
  unfold validatePublicationInput
  rw [if_pos (by rw [List.isEmpty_iff]; exact h)]

/-- Witness for C5: a padded lowercase identifier is accepted in
canonical form, and whitespace-only input is rejected. -/
theorem C5_witness :
    validatePublicationInput ("  us10721857b2 ".toList)
        = some ("US10721857B2".toList) ∧
    validatePublicationInput ("   ".toList) = none := by
  constructor
  · exact (C5_validation_accepts_exactly_amended_grammar.1 _ _).mpr
      ⟨by decide,
       ⟨'U', 'S', "10721857".toList, "B2".toList, by decide, by decide,
        by decide, by decide, by decide,
        Or.inr ⟨'B', '2', by decide, by decide, by decide⟩⟩⟩
  · exact C5_validation_accepts_exactly_amended_grammar.2 _ (by decide)

theorem matchEPOFormatRegex_decomp {c1 c2 : Char} {ds ks : List Char}
    (h1 : isUpperAZ c1 = true) (h2 : isUpperAZ c2 = true)
    (hds : ds.all isDigit09 = true) (hds1 : 1 ≤ ds.length)
    {k : Char} {tl : List Char} (hks : ks = k :: tl)
    (hk : isDigit09 k = false) :
    matchEPOFormatRegex (c1 :: c2 :: (ds ++ ks)) =
      if epoKindOk ks then some ([c1, c2], ds, ks) else none := by
  have hdec := takeWhile_digits_append hds hks hk
  simp only [matchEPOFormatRegex, h1, h2, Bool.and_self, if_true,
    hdec.1, hdec.2]
  by_cases hek : epoKindOk ks = true
  · rw [if_pos (by simp only [ge_iff_le, hek, Bool.and_true,
      decide_eq_true_eq]; omega), if_pos hek]
  · rw [if_neg (by simp [hek]), if_neg hek]

/-- C9 counterexample: `US1234567AB` is accepted by identifier
validation (two-letter kind code), but the EPO reformatting function
does not match it (its kind group is `[A-Z]\d?`), so the document-index
request body is the undotted input rather than `US.1234567.AB`. -/
theorem C9_counterexample :
    isValidPublicationNumber ("US1234567AB".toList) = true ∧
    epoDocumentIndexRequestBody ("US1234567AB".toList) = "US1234567AB".toList ∧
    "US1234567AB".toList ≠ "US.1234567.AB".toList := by decide

/-- C9 (amended): for every validator-accepted identifier whose kind
code also matches the formatter's `[A-Z]\d?` group (a letter alone, or a
letter followed by a digit), the document-index request body is the
dotted form `CC.NNNN.KK`; a validator-accepted identifier whose kind
code is two letters is POSTed unchanged, without dots. -/
theorem C9_request_body_dotted_exactly_for_formatter_kinds :
    ∀ (c1 c2 : Char) (ds ks : List Char),
      isUpperAZ c1 = true → isUpperAZ c2 = true →
      ds.all isDigit09 = true → 1 ≤ ds.length →
      validatorKindOk ks = true →
      (epoKindOk ks = true →
        epoDocumentIndexRequestBody (c1 :: c2 :: (ds ++ ks)) =
          [c1, c2] ++ ('.' :: ds) ++ ('.' :: ks)) ∧
      (epoKindOk ks = false →
        epoDocumentIndexRequestBody (c1 :: c2 :: (ds ++ ks)) =
          c1 :: c2 :: (ds ++ ks)) := by
  intro c1 c2 ds ks h1 h2 hds hds1 hvk
  obtain ⟨k, tl, hks, hk⟩ :
      ∃ k tl, ks = k :: tl ∧ isDigit09 k = false := by
    rcases (validatorKindOk_iff ks).mp hvk with ⟨l, rfl, hl⟩ | ⟨l, x, rfl, hl, _⟩
    · exact ⟨l, [], rfl, isDigit09_eq_false_of_isUpperAZ hl⟩
    · exact ⟨l, [x], rfl, isDigit09_eq_false_of_isUpperAZ hl⟩
  have hm := matchEPOFormatRegex_decomp h1 h2 hds hds1 hks hk
  constructor
  · intro hek
    unfold epoDocumentIndexRequestBody formatPublicationNumberForEPO
    rw [hm, if_pos hek]
  · intro hek
    unfold epoDocumentIndexRequestBody formatPublicationNumberForEPO
    rw [hm, if_neg (by simp [hek])]

/-- Witness for C9: `US10721857B2` is POSTed as `US.10721857.B2`, while
`US1234567AB` (two-letter kind) is POSTed unchanged. -/
theorem C9_witness :
    epoDocumentIndexRequestBody ("US10721857B2".toList)
        = "US.10721857.B2".toList ∧
    epoDocumentIndexRequestBody ("US1234567AB".toList)
        = "US1234567AB".toList := by
  constructor
  · have h := (C9_request_body_dotted_exactly_for_formatter_kinds
      'U' 'S' "10721857".toList ['B', '2'] (by decide) (by decide)
      (by decide) (by decide) (by decide)).1 (by decide)
    simpa using h
  · have h := (C9_request_body_dotted_exactly_for_formatter_kinds
      'U' 'S' "1234567".toList ['A', 'B'] (by decide) (by decide)
      (by decide) (by decide) (by decide)).2 (by decide)
    simpa using h

/-- C4: the token cache is a two-state machine.  (i) A request inside
the validity window returns the cached token, leaves the state
unchanged and makes no token-endpoint call — hence two requests within
the window starting from the Empty state make exactly one call in total
(ii); (iii) a request at or after expiry makes exactly one new
token-endpoint call; (iv) a failed acquisition propagates the error and
leaves both the token value and the expiry unchanged. -/
theorem C4_token_cache_two_state :
    (∀ (st : TokenCacheState) (now : Nat) (ep : Except String String)
        (t : String) (e : Nat),
      st.globalAccessToken = some t → st.globalTokenExpiry = some e →
      now < e →
      getEPOAccessTokenWithCache st now ep = (Except.ok t, st, 0)) ∧
    (∀ (now1 now2 : Nat) (t : String) (ep2 : Except String String),
      now2 < now1 + tokenCacheValidityMs →
      (getEPOAccessTokenWithCache ⟨none, none⟩ now1 (Except.ok t)).2.2 +
        (getEPOAccessTokenWithCache
          (getEPOAccessTokenWithCache ⟨none, none⟩ now1 (Except.ok t)).2.1
          now2 ep2).2.2 = 1 ∧
      (getEPOAccessTokenWithCache
          (getEPOAccessTokenWithCache ⟨none, none⟩ now1 (Except.ok t)).2.1
          now2 ep2).1 = Except.ok t) ∧
    (∀ (st : TokenCacheState) (now : Nat) (ep : Except String String)
        (t : String) (e : Nat),
      st.globalAccessToken = some t → st.globalTokenExpiry = some e →
      e ≤ now →
      (getEPOAccessTokenWithCache st now ep).2.2 = 1) ∧
    (∀ (st : TokenCacheState) (now : Nat) (m : String),
      (getEPOAccessTokenWithCache st now (Except.error m)).2.1 = st ∧
      ((getEPOAccessTokenWithCache st now (Except.error m)).2.2 = 1 →
        (getEPOAccessTokenWithCache st now (Except.error m)).1
          = Except.error m)) := by
  refine ⟨?_, ?_, ?_, ?_⟩
  · rintro ⟨tok, exp⟩ now ep t e ht he hlt
    simp only at ht he
    subst ht; subst he
    simp [getEPOAccessTokenWithCache, hlt]
  · intro now1 now2 t ep2 hwin
    simp [getEPOAccessTokenWithCache, refreshEPOAccessToken, hwin]
  · rintro ⟨tok, exp⟩ now ep t e ht he hge
    simp only at ht he
    subst ht; subst he
    match ep with
    | Except.ok t2 =>
      simp [getEPOAccessTokenWithCache, refreshEPOAccessToken,
        Nat.not_lt.mpr hge]
    | Except.error m =>
      simp [getEPOAccessTokenWithCache, refreshEPOAccessToken,
        Nat.not_lt.mpr hge]
  · rintro ⟨tok, exp⟩ now m
    match tok, exp with
    | some t, some e =>
      by_cases hlt : now < e
      · simp [getEPOAccessTokenWithCache, hlt]
      · simp [getEPOAccessTokenWithCache, refreshEPOAccessToken, hlt]
    | some t, none =>
      simp [getEPOAccessTokenWithCache, refreshEPOAccessToken]
    | none, e =>
      simp [getEPOAccessTokenWithCache, refreshEPOAccessToken]

/-- Witness for C4 at concrete inputs: a cache hit, a two-request
window, an expired request and a failed acquisition. -/
theorem C4_witness :
    getEPOAccessTokenWithCache ⟨some "tok", some 100⟩ 50 (Except.error "x")
        = (Except.ok "tok", ⟨some "tok", some 100⟩, 0) ∧
    (getEPOAccessTokenWithCache ⟨none, none⟩ 0 (Except.ok "t")).2.2 +
      (getEPOAccessTokenWithCache
        (getEPOAccessTokenWithCache ⟨none, none⟩ 0 (Except.ok "t")).2.1
        60000 (Except.error "boom")).2.2 = 1 ∧
    (getEPOAccessTokenWithCache ⟨some "tok", some 100⟩ 100
        (Except.ok "t2")).2.2 = 1 ∧
    (getEPOAccessTokenWithCache ⟨none, none⟩ 7 (Except.error "bad")).2.1
        = ⟨none, none⟩ := by
  refine ⟨?_, ?_, ?_, ?_⟩
  · exact C4_token_cache_two_state.1 ⟨some "tok", some 100⟩ 50
      (Except.error "x") "tok" 100 rfl rfl (by decide)
  · exact (C4_token_cache_two_state.2.1 0 60000 "t"
      (Except.error "boom") (by decide)).1
  · exact C4_token_cache_two_state.2.2.1 ⟨some "tok", some 100⟩ 100
      (Except.ok "t2") "tok" 100 rfl rfl (by decide)
  · exact (C4_token_cache_two_state.2.2.2 ⟨none, none⟩ 7 "bad").1

theorem perm_orderedInsertByPage (a : PageDownloadResult)
    (l : List PageDownloadResult) :
    List.Perm (orderedInsertByPage a l) (a :: l) := by
  induction l with
  | nil => simp [orderedInsertByPage]
  | cons b bs ih =>
    unfold orderedInsertByPage
    by_cases hab : a.pageNum ≤ b.pageNum
    · rw [if_pos hab]
    · rw [if_neg hab]
      exact (ih.cons b).trans (List.Perm.swap a b bs)

theorem pairwise_le_orderedInsertByPage (a : PageDownloadResult)
    (l : List PageDownloadResult)
    (hl : l.Pairwise (fun x y => x.pageNum ≤ y.pageNum)) :
    (orderedInsertByPage a l).Pairwise (fun x y => x.pageNum ≤ y.pageNum) := by
  induction l with
  | nil => simp [orderedInsertByPage]
  | cons b bs ih =>
    rw [List.pairwise_cons] at hl
    obtain ⟨hb, hbs⟩ := hl
    unfold orderedInsertByPage
    by_cases hab : a.pageNum ≤ b.pageNum
    · rw [if_pos hab]
      refine List.Pairwise.cons ?_ (List.Pairwise.cons hb hbs)
      intro y hy
      rcases List.mem_cons.mp hy with rfl | hy
      · exact hab
      · exact le_trans hab (hb y hy)
    · rw [if_neg hab]
      refine List.Pairwise.cons ?_ (ih hbs)
      intro y hy
      rcases List.mem_cons.mp
          ((perm_orderedInsertByPage a bs).mem_iff.mp hy) with rfl | hy2
      · omega
      · exact hb y hy2

theorem perm_sortByPageNum (l : List PageDownloadResult) :
    List.Perm (sortByPageNum l) l := by
  induction l with
  | nil => rfl
  | cons a as ih =>
    exact (perm_orderedInsertByPage a (sortByPageNum as)).trans (ih.cons a)

theorem pairwise_le_sortByPageNum (l : List PageDownloadResult) :
    (sortByPageNum l).Pairwise (fun x y => x.pageNum ≤ y.pageNum) := by
  induction l with
  | nil => simp [sortByPageNum]
  | cons a as ih => exact pairwise_le_orderedInsertByPage a _ ih

theorem pairwise_combine {α : Type} {R S : α → α → Prop} {l : List α}
    (hR : l.Pairwise R) (hS : l.Pairwise S) :
    l.Pairwise (fun a b => R a b ∧ S a b) := by
  induction l with
  | nil => simp
  | cons a as ih =>
    rw [List.pairwise_cons] at hR hS ⊢
    exact ⟨fun y hy => ⟨hR.1 y hy, hS.1 y hy⟩, ih hR.2 hS.2⟩

theorem pairwise_lt_pageNum_of_nodup {l : List PageDownloadResult}
    (hle : l.Pairwise (fun x y => x.pageNum ≤ y.pageNum))
    (hnd : (l.map (fun r => r.pageNum)).Nodup) :
    l.Pairwise (fun x y => x.pageNum < y.pageNum) := by
  have hne : l.Pairwise (fun x y => x.pageNum ≠ y.pageNum) :=
    (List.pairwise_map).mp hnd
  exact (pairwise_combine hle hne).imp fun h => lt_of_le_of_ne h.1 h.2

theorem eq_of_perm_of_pairwise_lt_pageNum {l₁ l₂ : List PageDownloadResult}
    (hp : List.Perm l₁ l₂)
    (h1 : l₁.Pairwise (fun x y => x.pageNum < y.pageNum))
    (h2 : l₂.Pairwise (fun x y => x.pageNum < y.pageNum)) : l₁ = l₂ := by
  haveI : IsAntisymm PageDownloadResult (fun x y => x.pageNum < y.pageNum) :=
    ⟨fun a b hab hba => absurd (hab.trans hba) (lt_irrefl _)⟩
  exact List.eq_of_perm_of_sorted hp h1 h2

theorem length_foldl_assign (rs : List MergedDownloadResult)
    (arr : List (Option MergedDownloadResult)) :
    (rs.foldl assignByIndex arr).length = arr.length := by
  induction rs generalizing arr with
  | nil => rfl
  | cons r rs ih =>
    rw [List.foldl_cons, ih]
    simp [assignByIndex, List.length_set]

theorem foldl_assign_getElem? (rs : List MergedDownloadResult)
    (arr : List (Option MergedDownloadResult)) (i : Nat) :
    (rs.foldl assignByIndex arr)[i]? =
      match rs.reverse.find? (fun r => r.docIndex == i) with
      | some r => if i < arr.length then some (some r) else none
      | none => arr[i]? := by
  induction rs generalizing arr with
  | nil => simp
  | cons r rs ih =>
    rw [List.foldl_cons, ih, List.reverse_cons, List.find?_append]
    cases hfind : rs.reverse.find? (fun r => r.docIndex == i) with
    | some r2 =>
      simp [assignByIndex, List.length_set]
    | none =>
      simp only [Option.none_or]
      by_cases hri : r.docIndex = i
      · rw [List.find?_cons_of_pos _ (by simp [hri])]
        simp [assignByIndex, List.getElem?_set, hri]
      · rw [List.find?_cons_of_neg _ (by simp [hri]), List.find?_nil]
        simp [assignByIndex, List.getElem?_set, hri]

theorem mergedCollect_eq (n : Nat) (rs : List MergedDownloadResult) :
    mergedCollect n rs =
      (List.range n).map
        (fun i => rs.reverse.find? (fun r => r.docIndex == i)) := by
  apply List.ext_getElem?
  intro i
  rw [mergedCollect, foldl_assign_getElem?, List.getElem?_map]
  by_cases hi : i < n
  · rw [List.getElem?_range hi]
    cases hfind : rs.reverse.find? (fun r => r.docIndex == i) with
    | some r => simp [hfind, List.length_replicate, hi]
    | none => simp [hfind, List.getElem?_replicate, hi]
  · have hr : (List.range n)[i]? = none := by
      rw [List.getElem?_eq_none]
      simpa [List.length_range] using Nat.le_of_not_lt hi
    cases hfind : rs.reverse.find? (fun r => r.docIndex == i) with
    | some r => simp [hfind, List.length_replicate, hi, hr]
    | none => simp [hfind, List.getElem?_replicate, hi, hr]

theorem find?_eq_some_of_mem_of_unique {p : MergedDownloadResult → Bool}
    {l : List MergedDownloadResult} {a : MergedDownloadResult}
    (hu : ∀ x ∈ l, ∀ y ∈ l, p x = true → p y = true → x = y)
    (ha : a ∈ l) (hpa : p a = true) : l.find? p = some a := by
  cases hfind : l.find? p with
  | none => exact absurd hpa (List.find?_eq_none.mp hfind a ha)
  | some b =>
    rw [hu b (List.mem_of_find?_eq_some hfind) a ha
      (List.find?_some hfind) hpa]

theorem find?_congr_perm_of_unique {p : MergedDownloadResult → Bool}
    {l₁ l₂ : List MergedDownloadResult} (hperm : List.Perm l₁ l₂)
    (hu : ∀ x ∈ l₁, ∀ y ∈ l₁, p x = true → p y = true → x = y) :
    l₁.find? p = l₂.find? p := by
  cases hf : l₁.find? p with
  | some a =>
    exact (find?_eq_some_of_mem_of_unique
      (fun x hx y hy => hu x (hperm.mem_iff.mpr hx) y (hperm.mem_iff.mpr hy))
      (hperm.mem_iff.mp (List.mem_of_find?_eq_some hf))
      (List.find?_some hf)).symm
  | none =>
    exact (List.find?_eq_none.mpr
      (fun x hx => List.find?_eq_none.mp hf x (hperm.mem_iff.mpr hx))).symm

theorem usptoMergedSequence_eq (n : Nat) (rs : List MergedDownloadResult) :
    usptoMergedSequence n rs =
      (List.range n).filterMap (fun i =>
        match rs.reverse.find? (fun r => r.docIndex == i) with
        | some r => if r.success then some r else none
        | none => none) := by
  rw [usptoMergedSequence, mergedCollect_eq, List.filterMap_map]
  rfl

theorem pairwise_key_filterMap_range {α : Type} (f : Nat → Option α)
    (key : α → Nat) (hf : ∀ i r, f i = some r → key r = i) (n : Nat) :
    ((List.range n).filterMap f).Pairwise (fun a b => key a < key b) := by
  have main : ∀ (l : List Nat), l.Pairwise (fun x y => x < y) →
      (l.filterMap f).Pairwise (fun a b => key a < key b) := by
    intro l
    induction l with
    | nil => intro _; simp
    | cons i is ih =>
      intro hp
      rw [List.pairwise_cons] at hp
      cases hfi : f i with
      | none => rw [List.filterMap_cons, hfi]; exact ih hp.2
      | some r =>
        rw [List.filterMap_cons, hfi]
        refine List.Pairwise.cons ?_ (ih hp.2)
        intro y hy
        obtain ⟨j, hj, hfy⟩ := List.mem_filterMap.mp hy
        rw [hf i r hfi, hf j y hfy]
        exact hp.1 j hj
  exact main _ (List.pairwise_lt_range n)

/-- C3: whatever order the concurrent fetches complete in (any
permutation of the settled result list), the merged output consists of
exactly the successful payloads in strictly ascending original index
order — page number for the EPO path (which sorts the successes by
`pageNum` before merging), document-list position for the USPTO merged
path (which stores settled results at their `docIndex` slot before the
ascending merge scan). -/
theorem C3_merge_order_is_ascending_index :
    (∀ rs rs' : List PageDownloadResult, List.Perm rs rs' →
      (rs.map (fun r => r.pageNum)).Nodup →
      epoMergedPages rs = epoMergedPages rs' ∧
      (epoMergedPages rs).Pairwise (fun x y => x.pageNum < y.pageNum) ∧
      List.Perm (epoMergedPages rs) (successfulPages rs)) ∧
    (∀ (n : Nat) (rs rs' : List MergedDownloadResult), List.Perm rs rs' →
      (rs.map (fun r => r.docIndex)).Nodup →
      usptoMergedSequence n rs = usptoMergedSequence n rs' ∧
      (usptoMergedSequence n rs).Pairwise
        (fun x y => x.docIndex < y.docIndex) ∧
      (∀ r, r ∈ usptoMergedSequence n rs ↔
        r ∈ rs ∧ r.success = true ∧ r.docIndex < n)) := by
  constructor
  · intro rs rs' hperm hnd
    have hnd' : (rs'.map (fun r => r.pageNum)).Nodup :=
      ((hperm.map _).nodup_iff).mp hnd
    have hmerged : ∀ (l : List PageDownloadResult),
        (l.map (fun r => r.pageNum)).Nodup →
        (epoMergedPages l).Pairwise (fun x y => x.pageNum < y.pageNum) := by
      intro l hl
      apply pairwise_lt_pageNum_of_nodup (pairwise_le_sortByPageNum _)
      have hnds : ((successfulPages l).map (fun r => r.pageNum)).Nodup :=
        List.Nodup.sublist ((List.filter_sublist l).map _) hl
      exact (((perm_sortByPageNum (successfulPages l)).map _).nodup_iff).mpr hnds
    have h1 : List.Perm (epoMergedPages rs) (successfulPages rs) :=
      perm_sortByPageNum _
    have h2 : List.Perm (epoMergedPages rs') (successfulPages rs') :=
      perm_sortByPageNum _
    have hchain : List.Perm (epoMergedPages rs) (epoMergedPages rs') :=
      h1.trans ((hperm.filter _).trans h2.symm)
    exact ⟨eq_of_perm_of_pairwise_lt_pageNum hchain (hmerged rs hnd)
        (hmerged rs' hnd'),
      hmerged rs hnd, h1⟩
  · intro n rs rs' hperm hnd
    have hinj := List.inj_on_of_nodup_map hnd
    have hu : ∀ i : Nat, ∀ x ∈ rs.reverse, ∀ y ∈ rs.reverse,
        (x.docIndex == i) = true → (y.docIndex == i) = true → x = y := by
      intro i x hx y hy hxi hyi
      rw [beq_iff_eq] at hxi hyi
      exact hinj (List.mem_reverse.mp hx) (List.mem_reverse.mp hy)
        (hxi.trans hyi.symm)
    refine ⟨?_, ?_, ?_⟩
    · rw [usptoMergedSequence_eq, usptoMergedSequence_eq]
      apply List.filterMap_congr
      intro i _
      have hrev : List.Perm rs.reverse rs'.reverse :=
        (List.reverse_perm rs).trans (hperm.trans (List.reverse_perm rs').symm)
      rw [find?_congr_perm_of_unique hrev (hu i)]
    · rw [usptoMergedSequence_eq]
      refine pairwise_key_filterMap_range (α := MergedDownloadResult) _
        (fun r => r.docIndex) ?_ n
      intro i r hfi
      cases hfind : rs.reverse.find? (fun x => x.docIndex == i) with
      | none => simp [hfind] at hfi
      | some r2 =>
        simp only [hfind] at hfi
        by_cases hs : r2.success = true
        · rw [if_pos hs] at hfi
          have h2 : r2 = r := Option.some_inj.mp hfi
          have h1 := List.find?_some hfind
          rw [← h2]
          exact beq_iff_eq.mp h1
        · rw [if_neg hs] at hfi; exact absurd hfi (by simp)
    · intro r
      rw [usptoMergedSequence_eq]
      constructor
      · intro hr
        obtain ⟨i, hi, hfi⟩ := List.mem_filterMap.mp hr
        cases hfind : rs.reverse.find? (fun x => x.docIndex == i) with
        | none => simp [hfind] at hfi
        | some r2 =>
          simp only [hfind] at hfi
          by_cases hs : r2.success = true
          · rw [if_pos hs] at hfi
            have h2 : r2 = r := Option.some_inj.mp hfi
            have h1 := List.find?_some hfind
            have hmem := List.mem_reverse.mp (List.mem_of_find?_eq_some hfind)
            have hidx : r2.docIndex = i := beq_iff_eq.mp h1
            subst h2
            exact ⟨hmem, hs, by rw [hidx]; exact List.mem_range.mp hi⟩
          · rw [if_neg hs] at hfi; exact absurd hfi (by simp)
      · rintro ⟨hmem, hs, hlt⟩
        apply List.mem_filterMap.mpr
        refine ⟨r.docIndex, List.mem_range.mpr hlt, ?_⟩
        have hfind : rs.reverse.find? (fun x => x.docIndex == r.docIndex)
            = some r :=
          find?_eq_some_of_mem_of_unique (hu r.docIndex)
            (List.mem_reverse.mpr hmem) (by simp)
        simp [hfind, hs]

/-- Witness for C3: two completion orders of the same three-page job
(page 2 failing) merge to the same strictly ascending output, and
likewise for a three-document USPTO merge job. -/
theorem C3_witness :
    epoMergedPages [⟨3, true, 30⟩, ⟨1, true, 10⟩, ⟨2, false, 0⟩]
        = epoMergedPages [⟨1, true, 10⟩, ⟨2, false, 0⟩, ⟨3, true, 30⟩] ∧
    usptoMergedSequence 3 [⟨2, true, 22⟩, ⟨0, true, 20⟩, ⟨1, false, 0⟩]
        = usptoMergedSequence 3 [⟨0, true, 20⟩, ⟨1, false, 0⟩, ⟨2, true, 22⟩] := by
  constructor
  · exact (C3_merge_order_is_ascending_index.1
      [⟨3, true, 30⟩, ⟨1, true, 10⟩, ⟨2, false, 0⟩]
      [⟨1, true, 10⟩, ⟨2, false, 0⟩, ⟨3, true, 30⟩]
      (by decide) (by decide)).1
  · exact (C3_merge_order_is_ascending_index.2 3
      [⟨2, true, 22⟩, ⟨0, true, 20⟩, ⟨1, false, 0⟩]
      [⟨0, true, 20⟩, ⟨1, false, 0⟩, ⟨2, true, 22⟩]
      (by decide) (by decide)).1

theorem zipEntriesOfResults_zipBatchResults (batch : List (UsptoDocEntry × Option Nat)) :
    ∀ startIdx : Nat,
      zipEntriesOfResults (zipBatchResults startIdx batch) =
        zipEntriesFlatFrom startIdx batch := by
  induction batch with
  | nil => intro startIdx; rfl
  | cons d rest ih =>
    intro startIdx
    have ih1 := ih (startIdx + 1)
    rw [zipEntriesOfResults] at ih1
    match d with
    | (doc, some buf) =>
      simp [zipBatchResults, zipEntriesFlatFrom, zipEntriesOfResults,
        List.filterMap_cons, ih1]
    | (doc, none) =>
      simp [zipBatchResults, zipEntriesFlatFrom, zipEntriesOfResults,
        List.filterMap_cons, ih1]

theorem zipEntriesFlatFrom_append (l₁ l₂ : List (UsptoDocEntry × Option Nat)) :
    ∀ startIdx : Nat,
      zipEntriesFlatFrom startIdx (l₁ ++ l₂) =
        zipEntriesFlatFrom startIdx l₁
          ++ zipEntriesFlatFrom (startIdx + l₁.length) l₂ := by
  induction l₁ with
  | nil => intro startIdx; simp [zipEntriesFlatFrom]
  | cons d rest ih =>
    intro startIdx
    match d with
    | (doc, some buf) =>
      simp only [List.cons_append, zipEntriesFlatFrom, List.length_cons,
        List.append_eq]
      rw [ih (startIdx + 1),
        show startIdx + 1 + rest.length = startIdx + (rest.length + 1) from
          by omega]
    | (doc, none) =>
      simp only [List.cons_append, zipEntriesFlatFrom, List.length_cons,
        List.append_eq]
      rw [ih (startIdx + 1),
        show startIdx + 1 + rest.length = startIdx + (rest.length + 1) from
          by omega]

theorem zipEntries_batches_eq_flatFrom :
    ∀ (docs : List (UsptoDocEntry × Option Nat)) (startIdx : Nat),
      zipEntriesOfResults (zipProcessBatches startIdx docs) =
        zipEntriesFlatFrom startIdx docs
  | [], _ => by simp [zipProcessBatches, zipEntriesOfResults, zipEntriesFlatFrom]
  | d :: ds, startIdx => by
    have ih := zipEntries_batches_eq_flatFrom
      ((d :: ds).drop usptoZipMaxConcurrency)
      (startIdx + ((d :: ds).take usptoZipMaxConcurrency).length)
    have hstep : zipProcessBatches startIdx (d :: ds) =
        zipBatchResults startIdx ((d :: ds).take usptoZipMaxConcurrency)
          ++ zipProcessBatches
              (startIdx + ((d :: ds).take usptoZipMaxConcurrency).length)
              ((d :: ds).drop usptoZipMaxConcurrency) := by
      simp only [zipProcessBatches]
    rw [hstep, zipEntriesOfResults, List.filterMap_append]
    rw [zipEntriesOfResults] at ih
    rw [ih]
    have hbatch := zipEntriesOfResults_zipBatchResults
      ((d :: ds).take usptoZipMaxConcurrency) startIdx
    rw [zipEntriesOfResults] at hbatch
    rw [hbatch, ← zipEntriesFlatFrom_append, List.take_append_drop]
termination_by docs _ => docs.length
decreasing_by
  simp only [usptoZipMaxConcurrency, List.length_drop, List.length_cons]
  omega

theorem zipEntriesFlatFrom_eq_nil_of_all_failed
    (docs : List (UsptoDocEntry × Option Nat)) (hall : ∀ d ∈ docs, d.2 = none) :
    ∀ startIdx : Nat, zipEntriesFlatFrom startIdx docs = [] := by
  induction docs with
  | nil => intro _; rfl
  | cons d rest ih =>
    intro startIdx
    match d, hall d (List.mem_cons_self d rest) with
    | (doc, _), hd =>
      simp only at hd
      subst hd
      exact ih (fun x hx => hall x (List.mem_cons_of_mem _ hx)) (startIdx + 1)

theorem successfulPages_eq_nil_of_all_failed {rs : List PageDownloadResult}
    (hall : ∀ r ∈ rs, r.success = false) : successfulPages rs = [] := by
  rw [successfulPages, List.filter_eq_nil_iff]
  intro r hr
  simp [hall r hr]

/-- C1 counterexample: for a one-document request whose single fetch
fails (zero successful payloads), `downloadFileWrapperAsZipParallel`
still writes an empty archive to the destination path, and
`downloadFileWrapperAsMergedParallel` still writes a zero-page merged
document — the claim that no output file is written fails on both USPTO
paths. -/
theorem C1_counterexample :
    downloadFileWrapperAsZipParallelWrites
        [(⟨some "X", some "1"⟩, none)] "out.zip" = [("out.zip", [])] ∧
    downloadFileWrapperAsMergedParallelWrites 1 [⟨0, false, 0⟩] "out.pdf"
        = [("out.pdf", [])] := by
  constructor
  · rw [downloadFileWrapperAsZipParallelWrites,
      zipEntries_batches_eq_flatFrom]
    rfl
  · rfl

/-- C1 (amended): with zero successful fetches, the EPO full-document
merge fails with the thrown error and writes nothing; the USPTO
file-wrapper ZIP and merged-PDF paths, however, perform their single
output write regardless, producing an empty archive / a zero-page
document. -/
theorem C1_zero_success_assembly :
    (∀ (filePath : String) (rs : List PageDownloadResult),
      (∀ r ∈ rs, r.success = false) →
      downloadAllPagesWrites filePath rs =
        Except.error "No pages were downloaded successfully") ∧
    (∀ (docs : List (UsptoDocEntry × Option Nat)) (zipFilePath : String),
      (∀ d ∈ docs, d.2 = none) →
      downloadFileWrapperAsZipParallelWrites docs zipFilePath
        = [(zipFilePath, [])]) ∧
    (∀ (n : Nat) (rs : List MergedDownloadResult) (path : String),
      (∀ r ∈ rs, r.success = false) →
      downloadFileWrapperAsMergedParallelWrites n rs path = [(path, [])]) := by
  refine ⟨?_, ?_, ?_⟩
  · intro filePath rs hall
    rw [downloadAllPagesWrites,
      if_pos (by rw [successfulPages_eq_nil_of_all_failed hall]; rfl)]
  · intro docs zipFilePath hall
    rw [downloadFileWrapperAsZipParallelWrites, zipEntries_batches_eq_flatFrom,
      zipEntriesFlatFrom_eq_nil_of_all_failed docs hall]
  · intro n rs path hall
    rw [downloadFileWrapperAsMergedParallelWrites]
    have hseq : usptoMergedSequence n rs = [] := by
      rw [usptoMergedSequence_eq, List.filterMap_eq_nil_iff]
      intro i _
      cases hfind : rs.reverse.find? (fun r => r.docIndex == i) with
      | none => simp [hfind]
      | some r =>
        have hr := hall r
          (List.mem_reverse.mp (List.mem_of_find?_eq_some hfind))
        simp [hfind, hr]
    rw [hseq]
    rfl

/-- Witness for C1: a two-page EPO job with both fetches failed throws
and writes nothing; one-element all-failed USPTO jobs still write. -/
theorem C1_witness :
    downloadAllPagesWrites "p.pdf" [⟨1, false, 0⟩, ⟨2, false, 0⟩]
        = Except.error "No pages were downloaded successfully" ∧
    downloadFileWrapperAsZipParallelWrites [(⟨none, none⟩, none)] "w.zip"
        = [("w.zip", [])] ∧
    downloadFileWrapperAsMergedParallelWrites 2 [⟨0, false, 0⟩, ⟨1, false, 0⟩]
        "w.pdf" = [("w.pdf", [])] := by
  refine ⟨?_, ?_, ?_⟩
  · exact C1_zero_success_assembly.1 "p.pdf" [⟨1, false, 0⟩, ⟨2, false, 0⟩]
      (by decide)
  · exact C1_zero_success_assembly.2.1 [(⟨none, none⟩, none)] "w.zip"
      (by decide)
  · exact C1_zero_success_assembly.2.2 2 [⟨0, false, 0⟩, ⟨1, false, 0⟩] "w.pdf"
      (by decide)

/-- C2 counterexample: two runs of the same two-page EPO request, one
with page 1 failed and one with both pages succeeding, return the
identical structured result — so the result returned to the caller
cannot report which tasks failed (the failed page sets differ). -/
theorem C2_counterexample :
    downloadEPODocumentResult "US1" "fullapp" "out.pdf"
        [⟨1, false, 0⟩, ⟨2, true, 7⟩]
      = downloadEPODocumentResult "US1" "fullapp" "out.pdf"
        [⟨1, true, 5⟩, ⟨2, true, 7⟩] ∧
    failedPageNums [⟨1, false, 0⟩, ⟨2, true, 7⟩]
      ≠ failedPageNums [⟨1, true, 5⟩, ⟨2, true, 7⟩] := by
  constructor
  · rfl
  · decide

/-- C2 (amended): when at least one of the N fetch tasks succeeds,
assembly completes successfully using exactly the successful payloads
(in ascending page order), but the structured result returned to the
caller is determined by the request parameters alone — it contains only
a success flag, a message and the file path, and records nothing about
which tasks failed (failed indices are only logged to the console). -/
theorem C2_partial_failure_result :
    ∀ (pub dt path : String) (rs : List PageDownloadResult),
      (∃ r ∈ rs, r.success = true) →
      downloadEPODocumentResult pub dt path rs =
        Except.ok ⟨true,
          "Downloaded " ++ pub ++ " (" ++ dt ++ ") to " ++ path, path⟩ ∧
      downloadAllPagesWrites path rs =
        Except.ok [(path, (epoMergedPages rs).map (fun r => r.payload))] := by
  intro pub dt path rs hex
  have hne : ¬ (successfulPages rs).isEmpty = true := by
    obtain ⟨r, hr, hs⟩ := hex
    rw [List.isEmpty_iff]
    intro hnil
    have : r ∈ successfulPages rs := List.mem_filter.mpr ⟨hr, hs⟩
    rw [hnil] at this
    exact absurd this (List.not_mem_nil r)
  have hw : downloadAllPagesWrites path rs =
      Except.ok [(path, (epoMergedPages rs).map (fun r => r.payload))] := by
    rw [downloadAllPagesWrites, if_neg hne]
  exact ⟨by rw [downloadEPODocumentResult, hw], hw⟩

/-- Witness for C2: a two-page request with one failed page yields the
constant success result. -/
theorem C2_witness :
    downloadEPODocumentResult "US1" "frontpage" "o.pdf"
        [⟨1, false, 0⟩, ⟨2, true, 9⟩]
      = Except.ok ⟨true, "Downloaded US1 (frontpage) to o.pdf", "o.pdf"⟩ := by
  have h := (C2_partial_failure_result "US1" "frontpage" "o.pdf"
    [⟨1, false, 0⟩, ⟨2, true, 9⟩] ⟨⟨2, true, 9⟩, by decide, rfl⟩).1
  simpa using h

/-- C6 counterexample: a 429 response from the EPO page-fetch endpoint
is a terminal failure for that page — `downloadSinglePage` rejects on
every non-200 status and has no retry branch — contradicting the claim
that a 429 from the token-repository page-fetch endpoint is retried. -/
theorem C6_counterexample :
    downloadSinglePageResult 429 1 0
      = Except.error "Failed to download page 1: HTTP 429" := by rfl

/-- C6 (amended): only the USPTO document-index fetch
(`fetchUsptoFileWrapperDocuments`) retries HTTP 429, recursively after a
fixed 100 ms delay; the EPO page fetch treats every non-200 status
(including 429) as a terminal failure for that page, and the USPTO
document fetch likewise treats 429 as terminal. -/
theorem C6_429_retried_only_by_index_fetch :
    (∀ resp redirectResp : HttpResponse, resp.status = 429 →
      fetchUsptoIndexStep resp redirectResp
        = UsptoIndexStep.retryAfterDelayMs 100) ∧
    (∀ status pageNumber body : Nat, status ≠ 200 →
      downloadSinglePageResult status pageNumber body =
        Except.error ("Failed to download page " ++ toString pageNumber
          ++ ": HTTP " ++ toString status)) ∧
    (∀ resp redirectResp : HttpResponse, resp.status = 429 →
      downloadUsptoDocumentOutcome resp redirectResp =
        Except.error "Failed to download document: HTTP 429") := by
  refine ⟨?_, ?_, ?_⟩
  · intro resp redirectResp h
    simp [fetchUsptoIndexStep, h]
  · intro status pageNumber body h
    rw [downloadSinglePageResult, if_pos h]
  · intro resp redirectResp h
    simp [downloadUsptoDocumentOutcome, h]
    decide

/-- Witness for C6 at concrete responses. -/
theorem C6_witness :
    fetchUsptoIndexStep ⟨429, none, 0⟩ ⟨200, none, 0⟩
      = UsptoIndexStep.retryAfterDelayMs 100 ∧
    downloadSinglePageResult 404 2 0
      = Except.error "Failed to download page 2: HTTP 404" ∧
    downloadUsptoDocumentOutcome ⟨429, none, 0⟩ ⟨200, none, 5⟩
      = Except.error "Failed to download document: HTTP 429" := by
  refine ⟨?_, ?_, ?_⟩
  · exact C6_429_retried_only_by_index_fetch.1 ⟨429, none, 0⟩ ⟨200, none, 0⟩
      rfl
  · have h := C6_429_retried_only_by_index_fetch.2.1 404 2 0 (by decide)
    exact h.trans (congrArg Except.error (by decide))
  · exact C6_429_retried_only_by_index_fetch.2.2 ⟨429, none, 0⟩ ⟨200, none, 5⟩
      rfl

/-- C7 counterexample: on a 302 redirect whose target is the *same*
host as the original request, `downloadUsptoDocument` still re-issues
the request without the `X-API-KEY` header — the header is dropped
unconditionally, not exactly when the redirect target is a different
host. -/
theorem C7_counterexample :
    downloadUsptoDocumentRequests ⟨"api.uspto.gov", "/doc"⟩ "KEY"
        ⟨302, some ⟨"api.uspto.gov", "/signed"⟩, 0⟩
      = [⟨"api.uspto.gov", "/doc",
          [("accept", "application/pdf"), ("X-API-KEY", "KEY")]⟩,
         ⟨"api.uspto.gov", "/signed", [("accept", "application/pdf")]⟩] ∧
    (HttpRequest.mk "api.uspto.gov" "/signed"
        [("accept", "application/pdf")]).headers.lookup "X-API-KEY"
      = none := by
  constructor <;> rfl

/-- C7 (amended): `downloadUsptoDocument` issues at most one redirect
request (a redirect answered by another redirect is a terminal
failure), and every re-issued redirect request omits the `X-API-KEY`
header unconditionally — regardless of whether the redirect target is
the same or a different host. -/
theorem C7_single_hop_header_always_dropped :
    (∀ (url : UrlParts) (key : String) (resp : HttpResponse),
      (downloadUsptoDocumentRequests url key resp).length ≤ 2) ∧
    (∀ (url : UrlParts) (key : String) (resp : HttpResponse)
        (req : HttpRequest),
      req ∈ (downloadUsptoDocumentRequests url key resp).tail →
      req.headers.lookup "X-API-KEY" = none) ∧
    (∀ (resp redirectResp : HttpResponse) (loc : UrlParts),
      (resp.status = 302 ∨ resp.status = 301) →
      resp.location = some loc →
      redirectResp.status ≠ 200 →
      downloadUsptoDocumentOutcome resp redirectResp =
        Except.error ("Failed to download from redirect: HTTP "
          ++ toString redirectResp.status)) := by
  refine ⟨?_, ?_, ?_⟩
  · intro url key resp
    rw [downloadUsptoDocumentRequests]
    by_cases h : (resp.status = 302 ∨ resp.status = 301)
    · rw [if_pos h]
      cases resp.location <;> simp
    · rw [if_neg h]
      simp
  · intro url key resp req hreq
    rw [downloadUsptoDocumentRequests] at hreq
    by_cases h : (resp.status = 302 ∨ resp.status = 301)
    · rw [if_pos h] at hreq
      cases hloc : resp.location with
      | none => rw [hloc] at hreq; simp at hreq
      | some loc =>
        rw [hloc] at hreq
        simp only [List.tail_cons, List.mem_singleton] at hreq
        subst hreq
        rfl
    · rw [if_neg h] at hreq
      simp at hreq
  · intro resp redirectResp loc hst hloc hrst
    rw [downloadUsptoDocumentOutcome, if_pos hst, hloc]
    simp [hrst]

/-- Witness for C7 at a concrete redirect exchange. -/
theorem C7_witness :
    (downloadUsptoDocumentRequests ⟨"api.uspto.gov", "/d"⟩ "K"
        ⟨301, some ⟨"data.uspto.gov", "/f"⟩, 0⟩).length ≤ 2 ∧
    (HttpRequest.mk "data.uspto.gov" "/f"
        [("accept", "application/pdf")]).headers.lookup "X-API-KEY"
      = none ∧
    downloadUsptoDocumentOutcome ⟨301, some ⟨"data.uspto.gov", "/f"⟩, 0⟩
        ⟨302, some ⟨"x.example", "/g"⟩, 0⟩
      = Except.error "Failed to download from redirect: HTTP 302" := by
  refine ⟨?_, ?_, ?_⟩
  · exact C7_single_hop_header_always_dropped.1 ⟨"api.uspto.gov", "/d"⟩ "K"
      ⟨301, some ⟨"data.uspto.gov", "/f"⟩, 0⟩
  · exact C7_single_hop_header_always_dropped.2.1 ⟨"api.uspto.gov", "/d"⟩ "K"
      ⟨301, some ⟨"data.uspto.gov", "/f"⟩, 0⟩ _ (by simp
        [downloadUsptoDocumentRequests, usptoDocRedirectRequest])
  · have h := C7_single_hop_header_always_dropped.2.2
      ⟨301, some ⟨"data.uspto.gov", "/f"⟩, 0⟩ ⟨302, some ⟨"x.example", "/g"⟩, 0⟩
      ⟨"data.uspto.gov", "/f"⟩ (Or.inr rfl) rfl (by decide)
    exact h.trans (congrArg Except.error (by decide))

theorem zipEntriesFlatFrom_length (docs : List (UsptoDocEntry × Option Nat)) :
    ∀ startIdx : Nat,
      (zipEntriesFlatFrom startIdx docs).length
        = (docs.filter (fun d => d.2.isSome)).length := by
  induction docs with
  | nil => intro _; rfl
  | cons d rest ih =>
    intro startIdx
    match d with
    | (doc, some buf) =>
      simp [zipEntriesFlatFrom, List.filter_cons, ih (startIdx + 1)]
    | (doc, none) =>
      simp [zipEntriesFlatFrom, List.filter_cons, ih (startIdx + 1)]

theorem mem_zipEntriesFlatFrom (docs : List (UsptoDocEntry × Option Nat)) :
    ∀ (startIdx i : Nat) (doc : UsptoDocEntry) (buf : Nat),
      docs[i]? = some (doc, some buf) →
      (zipEntryFileName doc (startIdx + i), buf)
        ∈ zipEntriesFlatFrom startIdx docs := by
  induction docs with
  | nil => intro _ i _ _ h; simp at h
  | cons d rest ih =>
    intro startIdx i doc buf h
    match i with
    | 0 =>
      simp only [List.getElem?_cons_zero, Option.some_inj] at h
      subst h
      simp [zipEntriesFlatFrom]
    | i + 1 =>
      simp only [List.getElem?_cons_succ] at h
      have hmem := ih (startIdx + 1) i doc buf h
      have harith : startIdx + 1 + i = startIdx + (i + 1) := by omega
      rw [harith] at hmem
      match d with
      | (doc2, some buf2) =>
        exact List.mem_cons_of_mem _ hmem
      | (doc2, none) => exact hmem

/-- C8 counterexample: a document code containing a space yields the
archive entry name `A B-1.pdf` — the space, which is outside
`[A-Za-z0-9.-]`, is not replaced, because the sanitiser only replaces
the Windows-reserved characters. -/
theorem C8_counterexample :
    zipEntriesOfResults (zipProcessBatches 0 [(⟨some "A B", some "1"⟩, some 5)])
      = [("A B-1.pdf", 5)] ∧
    specSafeFileName "A B-1.pdf" = "A_B-1.pdf" ∧
    "A B-1.pdf" ≠ "A_B-1.pdf" := by
  refine ⟨?_, rfl, by decide⟩
  rw [zipEntries_batches_eq_flatFrom]
  rfl

/-- C8 (amended): in archive mode, the batched run inserts exactly one
entry per successful fetch, in document order, named
`{documentCode || 'doc'}-{documentIdentifier || docIndex}.pdf` with the
characters `<>:"/\\|?*` (and only those) replaced by `_`. -/
theorem C8_archive_entries :
    (∀ docs : List (UsptoDocEntry × Option Nat),
      zipEntriesOfResults (zipProcessBatches 0 docs) = zipEntriesFlat docs) ∧
    (∀ docs : List (UsptoDocEntry × Option Nat),
      (zipEntriesFlat docs).length
        = (docs.filter (fun d => d.2.isSome)).length) ∧
    (∀ (docs : List (UsptoDocEntry × Option Nat)) (i : Nat)
        (doc : UsptoDocEntry) (buf : Nat),
      docs[i]? = some (doc, some buf) →
      (zipEntryFileName doc i, buf) ∈ zipEntriesFlat docs) ∧
    (∀ (s : String) (c : Char), c ∈ (replaceWindowsUnsafe s).data →
      windowsUnsafeChars.contains c = false) := by
  refine ⟨?_, ?_, ?_, ?_⟩
  · intro docs
    rw [zipEntries_batches_eq_flatFrom, zipEntriesFlat]
  · intro docs
    rw [zipEntriesFlat, zipEntriesFlatFrom_length]
  · intro docs i doc buf h
    have hmem := mem_zipEntriesFlatFrom docs 0 i doc buf h
    rw [Nat.zero_add] at hmem
    exact hmem
  · intro s c hc
    rw [replaceWindowsUnsafe] at hc
    obtain ⟨orig, _, horig⟩ := List.mem_map.mp hc
    by_cases hin : windowsUnsafeChars.contains orig = true
    · rw [if_pos hin] at horig
      subst horig
      decide
    · rw [if_neg hin] at horig
      subst horig
      exact Bool.eq_false_iff.mpr hin

/-- Witness for C8: a two-document job with one failure produces one
entry, present under its computed name. -/
theorem C8_witness :
    zipEntriesOfResults (zipProcessBatches 0
        [(⟨some "IDS", some "7"⟩, some 3), (⟨none, none⟩, none)])
      = zipEntriesFlat
        [(⟨some "IDS", some "7"⟩, some 3), (⟨none, none⟩, none)] ∧
    (zipEntryFileName ⟨some "IDS", some "7"⟩ 0, 3)
      ∈ zipEntriesFlat
        [(⟨some "IDS", some "7"⟩, some 3), (⟨none, none⟩, none)] ∧
    windowsUnsafeChars.contains '_' = false := by
  refine ⟨?_, ?_, ?_⟩
  · exact C8_archive_entries.1
      [(⟨some "IDS", some "7"⟩, some 3), (⟨none, none⟩, none)]
  · exact C8_archive_entries.2.2.1
      [(⟨some "IDS", some "7"⟩, some 3), (⟨none, none⟩, none)] 0
      ⟨some "IDS", some "7"⟩ 3 rfl
  · exact C8_archive_entries.2.2.2 "a<b" '_' (by decide)

/-- C10: the document-index fetch has no bound on rate-limit retries.
If the endpoint answers HTTP 429 forever, the retry recursion reaches no
terminal outcome within any number of attempts (the fuelled embedding
returns `none` for every fuel), while the scheduled 100 ms delays grow
past every bound; the 30-second timeout is a constant attached to each
individual request and therefore bounds no prefix of the retry chain. -/
theorem C10_unbounded_429_retry :
    (∀ primary redirect : Nat → HttpResponse,
      (∀ k, (primary k).status = 429) →
      ∀ (fuel attempt : Nat),
        fetchUsptoFileWrapperDocumentsFuel primary redirect attempt fuel
          = none) ∧
    (∀ bound : Nat, ∃ retries : Nat,
      bound < usptoIndexTotalRetryDelay retries) := by
  constructor
  · intro primary redirect h429 fuel
    induction fuel with
    | zero => intro attempt; rfl
    | succ fuel ih =>
      intro attempt
      have hstep : fetchUsptoIndexStep (primary attempt) (redirect attempt)
          = UsptoIndexStep.retryAfterDelayMs 100 := by
        simp [fetchUsptoIndexStep, h429 attempt]
      simp only [fetchUsptoFileWrapperDocumentsFuel, hstep]
      exact ih (attempt + 1)
  · intro bound
    refine ⟨bound + 1, ?_⟩
    simp only [usptoIndexTotalRetryDelay, usptoRetryDelayMs]
    omega

/-- Witness for C10: against an always-429 endpoint, 500 attempts still
yield no outcome, and the scheduled delay exceeds 1000 ms. -/
theorem C10_witness :
    fetchUsptoFileWrapperDocumentsFuel (fun _ => ⟨429, none, 0⟩)
        (fun _ => ⟨200, none, 0⟩) 0 500 = none ∧
    ∃ retries, 1000 < usptoIndexTotalRetryDelay retries :=
  ⟨C10_unbounded_429_retry.1 _ _ (fun _ => rfl) 500 0,
   C10_unbounded_429_retry.2 1000⟩

end Patent
